import Mathlib

/-!
# SolTracer — verification of the core simulation/analysis engine

Shallow embedding of the pure core of the SolTracer transaction debugger:

* `src/utils/log-parser.ts` — grouping a flat log stream into per-instruction
  buckets, success detection and compute-unit extraction;
* `src/utils/anchor-utils.ts` — Anchor instruction discriminator derivation,
  discriminator lookup and argument decoding;
* `src/core/simulator.ts` — the `TransactionSimulator.debugSignature`
  orchestration: network-fallback search, trace assembly, per-account diffs
  and top-level error handling.

Strings are Lean `String`s; byte buffers are `List Nat` (each entry < 256 by
construction of the encoders); JavaScript `undefined`/`null` results are
`Option`; thrown exceptions are `Except String`.
-/

namespace SolTracer

/-! ## String helpers (JS `String.prototype.includes`, regex fragments) -/

/-- JS `s.includes(pat)`: `pat` occurs as a contiguous substring of `s`. -/
def containsSub (s pat : String) : Bool :=
  (s.data.tails).any (fun t => pat.data.isPrefixOf t)

/-- Digits of a decimal numeral to a natural number (JS `parseInt(_, 10)`
on an all-digit string). -/
def digitsToNat (ds : List Char) : Nat :=
  ds.foldl (fun a c => a * 10 + (c.toNat - 48)) 0

/-! ## `log-parser.ts` -/

/-- Attempt of the regex `/invoke \[(\d+)\]/` at the start of `cs`:
literal `invoke [`, then one or more digits (returned), then `]`. -/
def matchInvokeAt (cs : List Char) : Option (List Char) :=
  if ("invoke [".data).isPrefixOf cs then
    let rest := cs.drop 8
    let ds := rest.takeWhile Char.isDigit
    if ds.isEmpty then none
    else
      match rest.drop ds.length with
      | ']' :: _ => some ds
      | _ => none
  else none

/-- First match of `/invoke \[(\d+)\]/` anywhere in the line, returning the
captured digit group (JS `log.match(/invoke \[(\d+)\]/)[1]`). -/
def firstInvokeDepth : List Char → Option (List Char)
  | [] => none
  | c :: t =>
    match matchInvokeAt (c :: t) with
    | some ds => some ds
    | none => firstInvokeDepth t

/-- The guard of `log-parser.ts:17`:
`log.startsWith('Program ') && log.includes(' invoke [')`. -/
def isInvokeLine (log : String) : Bool :=
  ("Program ".data).isPrefixOf log.data && containsSub log " invoke ["

/-- A line that opens a new top-level bucket: it passes `isInvokeLine` and the
first regex match captures exactly the digit string `"1"`
(`matches[1] === '1'` at `log-parser.ts:21`). -/
def isDepth1Line (log : String) : Bool :=
  isInvokeLine log && decide (firstInvokeDepth log.data = some ['1'])

/-- Push `l` onto the last bucket (JS `instructionLogs[currentInstruction].push(log)`;
the empty case is unreachable because a bucket exists whenever `inInstruction`). -/
def appendLast : List (List String) → String → List (List String)
  | [], _ => []
  | [b], l => [b ++ [l]]
  | b :: bs, l => b :: appendLast bs l

/-- State of the `logs.forEach` loop of `parseTransactionLogs`: the buckets
built so far (bucket `k` of the JS object is entry `k-1` here, since keys are
the values `1..K` of the only-incremented `currentInstruction` counter) and
the `inInstruction` flag. -/
structure ParseState where
  buckets : List (List String)
  inInstruction : Bool
deriving Repr, DecidableEq

/-- One iteration of the `forEach` body of `parseTransactionLogs`
(`log-parser.ts:15-35`). -/
def parseStep (st : ParseState) (log : String) : ParseState :=
  if isInvokeLine log then
    match firstInvokeDepth log.data with
    | some ds =>
      if ds = ['1'] then
        { buckets := st.buckets ++ [[log]], inInstruction := true }
      else if st.inInstruction then
        { st with buckets := appendLast st.buckets log }
      else st
    | none => st
  else if st.inInstruction then
    { st with buckets := appendLast st.buckets log }
  else st

/-- Embedding of `parseTransactionLogs` (`log-parser.ts:10-38`): the
`forEach` loop as a left fold over the lines; it groups a flat log stream
into per-top-level-instruction buckets.  The JS result object has keys
`1..K`; here bucket `k` is entry `k-1` of the returned list, and
`bucketLookup` below reproduces the keyed lookup. -/
def parseTransactionLogs (logs : List String) : List (List String) :=
  (logs.foldl parseStep ⟨[], false⟩).buckets

/-- Lookup of key `k` in the grouped-log object (`instructionLogs[k]`): the
object's keys are `1..K`, so key `0` misses and key `k+1` is entry `k`. -/
def bucketLookup (m : List (List String)) : Nat → Option (List String)
  | 0 => none
  | k + 1 => m[k]?

/-- A line the parser keeps once a bucket is open: everything except a line
that looks like an invoke line (`isInvokeLine`) but whose regex capture fails
(`matches` is `null` at `log-parser.ts:19`, so the line is silently dropped). -/
def keepLine (log : String) : Bool :=
  !(isInvokeLine log && (firstInvokeDepth log.data).isNone)

/-- Embedding of `isTransactionSuccessful` (`log-parser.ts:71-82`): scan the last five
lines for `'failed'` / `'Error:'`; absent those, require some line containing
`'Program log: Success'`. -/
def isTransactionSuccessful (logs : List String) : Bool :=
  let lastFewLogs := logs.drop (logs.length - 5)
  if lastFewLogs.any (fun log => containsSub log "failed" || containsSub log "Error:") then
    false
  else
    logs.any (fun log => containsSub log "Program log: Success")

/-- Attempt of the regex `/consumed (\d+) of \d+ compute units/` at the start
of `cs`, returning the first captured number. -/
def matchConsumedAt (cs : List Char) : Option Nat :=
  if ("consumed ".data).isPrefixOf cs then
    let r1 := cs.drop 9
    let ds1 := r1.takeWhile Char.isDigit
    if ds1.isEmpty then none
    else
      let r2 := r1.drop ds1.length
      if (" of ".data).isPrefixOf r2 then
        let r3 := r2.drop 4
        let ds2 := r3.takeWhile Char.isDigit
        if ds2.isEmpty then none
        else
          let r4 := r3.drop ds2.length
          if (" compute units".data).isPrefixOf r4 then some (digitsToNat ds1)
          else none
      else none
  else none

/-- First match of the consumed-units regex anywhere in a line. -/
def firstConsumed : List Char → Option Nat
  | [] => none
  | c :: t =>
    match matchConsumedAt (c :: t) with
    | some n => some n
    | none => firstConsumed t

/-- Embedding of `extractComputeUnits` (`log-parser.ts:89-97`): first line matching the
pattern wins. -/
def extractComputeUnits : List String → Option Nat
  | [] => none
  | l :: ls =>
    match firstConsumed l.data with
    | some n => some n
    | none => extractComputeUnits ls

/-! ## `anchor-utils.ts` -/

/-- UTF-8 encoding of a single character (JS `Buffer.from(s, 'utf8')`,
one code point). -/
def charUtf8 (c : Char) : List Nat :=
  let n := c.toNat
  if n < 128 then [n]
  else if n < 2048 then [192 + n / 64, 128 + n % 64]
  else if n < 65536 then [224 + n / 4096, 128 + (n / 64) % 64, 128 + n % 64]
  else [240 + n / 262144, 128 + (n / 4096) % 64, 128 + (n / 64) % 64, 128 + n % 64]

/-- UTF-8 bytes of a string (JS `Buffer.from(ixName, 'utf8')`). -/
def utf8Bytes (s : String) : List Nat :=
  (s.data.map charUtf8).flatten

/-- Embedding of `deriveInstructionDiscriminator` (`anchor-utils.ts:139-155`): an 8-byte
zero-filled buffer whose first `min 8 (length nameBytes)` entries are copied
from the name's UTF-8 bytes.  (The source comments call this a placeholder
for the sha256-based derivation.) -/
def deriveInstructionDiscriminator (ixName : String) : List Nat :=
  let nameBytes := utf8Bytes ixName
  (List.range 8).map (fun i => (nameBytes.get? i).getD 0)

/-- One typed field of an IDL instruction (`IdlField` in `types.ts`; the
type descriptor is never inspected by the decoder, so it stays a string). -/
structure IdlField where
  name : String
  ty : String
deriving Repr, DecidableEq

/-- The `IdlInstruction` shape from `types.ts` restricted to what the decoder reads
(`name` and `args`; the declared account roles are never consulted). -/
structure IdlInstruction where
  name : String
  args : List IdlField
deriving Repr, DecidableEq

/-- An Anchor IDL as consumed by `anchor-utils.ts`: its `instructions` list
(a missing list is the empty list; `findInstructionByDiscriminator` then
returns null either way). -/
structure Idl where
  instructions : List IdlInstruction
deriving Repr, DecidableEq

/-- Embedding of `findInstructionByDiscriminator` (`anchor-utils.ts:119-132`): first IDL
instruction whose derived discriminator is byte-for-byte equal to the given
prefix (`Buffer.compare(...) === 0`). -/
def findInstructionByDiscriminator (idl : Idl) (discriminator : List Nat) :
    Option IdlInstruction :=
  idl.instructions.find? (fun ix =>
    decide (deriveInstructionDiscriminator ix.name = discriminator))

/-- Lowercase hex digit of a value < 16. -/
def hexDigit (n : Nat) : Char :=
  if n < 10 then Char.ofNat (48 + n) else Char.ofNat (87 + n)

/-- JS `buffer.toString('hex')`: two lowercase hex digits per byte. -/
def hexOfBytes (bs : List Nat) : String :=
  String.mk ((bs.map (fun b => [hexDigit (b / 16), hexDigit (b % 16)])).flatten)

/-- Result of `decodeAnchorArgs`: the empty object when the schema declares
no arguments, otherwise the `{ rawData: data.toString('hex') }` object. -/
inductive DecodedArgs where
  | emptyArgs : DecodedArgs
  | rawData (hex : String) : DecodedArgs
deriving Repr, DecidableEq

/-- Embedding of `decodeAnchorArgs` (`anchor-utils.ts:163-175`): ignores the schema's
field layout entirely; any byte buffer is accepted and echoed back as hex. -/
def decodeAnchorArgs (data : List Nat) (ix : IdlInstruction) : DecodedArgs :=
  if ix.args.isEmpty then .emptyArgs
  else .rawData (hexOfBytes data)

/-- A compiled instruction as stored in a fetched legacy message: index of
the program id, account indices into the message's key list, raw data. -/
structure CompiledIx where
  programIdIndex : Nat
  accounts : List Nat
  data : List Nat
deriving Repr, DecidableEq

/-- The `{ name, ix, args }` object returned by `decodeAnchorInstruction`
(the locally computed account list is discarded by the source before
returning). -/
structure DecodedInstruction where
  name : String
  ix : IdlInstruction
  args : DecodedArgs
deriving Repr, DecidableEq

/-- Embedding of `decodeAnchorInstruction` (`anchor-utils.ts:61-111`) on a compiled
instruction: split off the 8-byte discriminator, look it up among the IDL's
instructions, and on a hit decode the remaining bytes; on a miss return
`none`.  The whole source body is inside `try/catch { return null }`, so the
embedding is a total `Option`-valued function; `accountKeys` is threaded for
signature fidelity (the source only uses it for the discarded account list). -/
def decodeAnchorInstruction (instruction : CompiledIx) (idl : Idl)
    (accountKeys : List String) : Option DecodedInstruction :=
  let _ := accountKeys
  let data := instruction.data
  let discriminator := data.take 8
  match findInstructionByDiscriminator idl discriminator with
  | none => none
  | some matchingIx =>
    let argsData := data.drop 8
    some { name := matchingIx.name, ix := matchingIx,
           args := decodeAnchorArgs argsData matchingIx }

/-! ## `simulator.ts` — data model -/

/-- The three hardcoded fallback endpoints of `debugSignature`. -/
def mainnetUrl : String := "https://api.mainnet-beta.solana.com"

def devnetUrl : String := "https://api.devnet.solana.com"

def testnetUrl : String := "https://api.testnet.solana.com"

/-- Embedding of `getNetworkName` (`simulator.ts:534-544`). -/
def getNetworkName (rpcUrl : String) : String :=
  if containsSub rpcUrl "mainnet" then "mainnet"
  else if containsSub rpcUrl "devnet" then "devnet"
  else if containsSub rpcUrl "testnet" then "testnet"
  else "unknown network"

/-- Message of a fetched transaction: legacy carries its key list and
compiled instructions; versioned is reduced to its static keys (the source's
versioned path only reads those). -/
inductive TxMessage where
  | legacy (accountKeys : List String) (instructions : List CompiledIx)
  | versioned (staticAccountKeys : List String)
deriving Repr, DecidableEq

/-- A transaction record as returned by `connection.getTransaction`. -/
structure FetchedTx where
  message : TxMessage
  slot : Nat
  blockTime : Option Nat
deriving Repr, DecidableEq

/-- Outcome of one `getTransaction` call: a record, `null`, or a thrown
error. -/
inductive FetchOutcome where
  | found (tx : FetchedTx)
  | notFound
  | threw (msg : String)
deriving Repr, DecidableEq

/-- Returns `true` exactly on `found`. -/
def FetchOutcome.isFound : FetchOutcome → Bool
  | .found _ => true
  | _ => false

/-- The `AccountInfo` fields read by the simulator. -/
structure AccountInfoM where
  lamports : Nat
  dataBytes : List Nat
  owner : String
  executable : Bool
  rentEpoch : Nat
deriving Repr, DecidableEq

/-- The `AccountState` shape from `types.ts`: a captured snapshot. -/
structure AccountState where
  pubkey : String
  account : AccountInfoM
  programOwner : String
  label : Option String
deriving Repr, DecidableEq

/-- The `AccountDiff` shape from `types.ts` restricted to the fields the simulator
writes: `before`/`after` are nullable snapshots, `changes.data` is the
boolean placeholder, `changes.balance` the optional `[pre, post]` pair
(the remaining optional change fields are never produced by this code). -/
structure AccountDiff where
  pubkey : String
  before : Option AccountState
  after : Option AccountState
  dataChanged : Bool
  balanceChange : Option (Nat × Nat)
deriving Repr, DecidableEq

/-- The `DebugInstruction` shape from `types.ts` restricted to the fields
`debugSignature` writes. -/
structure DebugInstruction where
  programId : String
  programName : String
  instructionIndex : Nat
  instructionName : Option String
  anchorArgs : Option DecodedArgs
  logs : List String
  accountDiffs : List AccountDiff
deriving Repr, DecidableEq

/-- The `DebugTransaction` shape from `types.ts` (plus the `network` field the
simulator assigns on the success path). -/
structure DebugTransaction where
  signature : Option String
  success : Bool
  error : Option String
  instructions : List DebugInstruction
  timestamp : Option Nat := none
  slot : Option Nat := none
  network : Option String := none
deriving Repr, DecidableEq

/-- The `simulationResult.value` record as read by `debugSignature`: the (already
`formatError`-rendered) error, if any, and the nullable log list. -/
structure SimResponse where
  err : Option String
  logs : Option (List String)
deriving Repr, DecidableEq

/-- External collaborators of `debugSignature`, keyed where the source keys
them: transaction fetch per RPC endpoint, per-address account info (a thrown
`getAccountInfo` is caught and skipped, so it is identified with `null`),
labels, the dry-run simulation per RPC endpoint (`simulateFromSignature`:
its refetch, blockhash fetch and `simulateTransaction` are all external
calls whose combined outcome is a response or a thrown error), the Anchor
IDL map and the user-supplied program-name mappings. -/
structure Env where
  fetch : String → FetchOutcome
  getAccountInfo : String → Option AccountInfoM
  getLabel : String → AccountInfoM → Option String
  simulate : String → Except String SimResponse
  idlMap : String → Option Idl
  userPrograms : String → Option String

/-! ## `simulator.ts` — operations -/

/-- The `KNOWN_PROGRAMS` table of `lookup.ts`. -/
def knownPrograms : List (String × String) :=
  [("11111111111111111111111111111111", "System Program"),
   ("TokenkegQfeZyiNwAJbNbGKPFXCWuBvf9Ss623VQ5DA", "Token Program"),
   ("ATokenGPvbdGVxr1b2hvZbsiqW5xWH25efTNsLJA8knL", "Associated Token Program"),
   ("metaqbxxUerdq28cj1RbAWkYQm3ybzjb6a8bt518x1s", "Metaplex Token Metadata"),
   ("SysvarRent111111111111111111111111111111111", "Rent Sysvar"),
   ("SysvarC1ock11111111111111111111111111111111", "Clock Sysvar"),
   ("Stake11111111111111111111111111111111111111", "Stake Program"),
   ("Vote111111111111111111111111111111111111111", "Vote Program"),
   ("BPFLoaderUpgradeab1e11111111111111111111111", "BPF Loader"),
   ("ComputeBudget111111111111111111111111111111", "Compute Budget Program")]

/-- Embedding of `getProgramName` (`lookup.ts:237-262`): known table, then user-supplied
mappings, then the abbreviated `head...tail` form.  The memo cache of the
source is semantics-preserving and not modelled. -/
def getProgramName (userPrograms : String → Option String) (idStr : String) : String :=
  match (knownPrograms.find? (fun p => p.1 = idStr)).map Prod.snd with
  | some n => n
  | none =>
    match userPrograms idStr with
    | some n => n
    | none =>
      String.mk (idStr.data.take 4) ++ "..." ++
        String.mk (idStr.data.drop (idStr.data.length - 4))

/-- The pre-transaction snapshot for one fetched account
(`simulator.ts:191-199`). -/
def mkAccountState (env : Env) (key : String) (info : AccountInfoM) : AccountState :=
  { pubkey := key, account := info, programOwner := info.owner,
    label := env.getLabel key info }

/-- The `preTransactionAccounts` map built by the loop at
`simulator.ts:187-204`: an account maps to a snapshot exactly when it is
among the message keys and its info fetch yields a record (a fetch failure
is caught, warned and skipped). -/
def buildPreMap (env : Env) (accountKeys : List String) : String → Option AccountState :=
  fun a =>
    if accountKeys.contains a then (env.getAccountInfo a).map (mkAccountState env a)
    else none

/-- The per-instruction account-diff loop (`simulator.ts:261-287`).  An
out-of-range account index makes `accountKeys[accountIdx]` undefined and the
subsequent `.toString()` throw to the outer catch, hence `Except`.  The
post-state is literally the pre-state (`simulator.ts:267`), and a diff is
pushed only when both are non-null. -/
def buildAccountDiffs (preMap : String → Option AccountState)
    (accountKeys : List String) : List Nat → Except String (List AccountDiff)
  | [] => .ok []
  | accountIdx :: rest =>
    match accountKeys[accountIdx]? with
    | none => .error "TypeError: Cannot read properties of undefined"
    | some account =>
      let preState := preMap account
      let postState := preState
      match buildAccountDiffs preMap accountKeys rest with
      | .error e => .error e
      | .ok rest' =>
        match preState, postState with
        | some pre, some post =>
          .ok ({ pubkey := account, before := some pre, after := some post,
                 dataChanged := false,
                 balanceChange :=
                   if pre.account.lamports ≠ post.account.lamports then
                     some (pre.account.lamports, post.account.lamports)
                   else none } :: rest')
        | _, _ => .ok rest'

/-- The `message.instructions.forEach` loop of the legacy path
(`simulator.ts:229-291`), carrying the running position `index`.  A decode
failure is caught and warned in the source, so the total `Option` decoder
already covers it; the log bucket is `logsByInstruction[index] || []`. -/
def assembleLegacyAux (env : Env) (preMap : String → Option AccountState)
    (accountKeys : List String) (logsByInstruction : List (List String)) :
    Nat → List CompiledIx → Except String (List DebugInstruction)
  | _, [] => .ok []
  | index, instruction :: rest =>
    match accountKeys[instruction.programIdIndex]? with
    | none => .error "TypeError: Cannot read properties of undefined"
    | some programId =>
      let programName := getProgramName env.userPrograms programId
      let decoded :=
        match env.idlMap programId with
        | some idl => decodeAnchorInstruction instruction idl accountKeys
        | none => none
      match buildAccountDiffs preMap accountKeys instruction.accounts with
      | .error e => .error e
      | .ok diffs =>
        match assembleLegacyAux env preMap accountKeys logsByInstruction (index + 1) rest with
        | .error e => .error e
        | .ok rest' =>
          .ok ({ programId := programId, programName := programName,
                 instructionIndex := index,
                 instructionName := decoded.map (fun d => d.name),
                 anchorArgs := decoded.map (fun d => d.args),
                 logs := (bucketLookup logsByInstruction index).getD [],
                 accountDiffs := diffs } :: rest')

/-- Legacy-path assembly from position 0. -/
def assembleLegacy (env : Env) (preMap : String → Option AccountState)
    (accountKeys : List String) (instructions : List CompiledIx)
    (logsByInstruction : List (List String)) : Except String (List DebugInstruction) :=
  assembleLegacyAux env preMap accountKeys logsByInstruction 0 instructions

/-- The single placeholder instruction pushed for a versioned transaction
(`simulator.ts:295-301`). -/
def versionedPlaceholder (logs : List String) : DebugInstruction :=
  { programId := "11111111111111111111111111111111", programName := "System Program",
    instructionIndex := 0, instructionName := none, anchorArgs := none,
    logs := logs, accountDiffs := [] }

/-- The three guarded fallback blocks of `debugSignature`
(`simulator.ts:104-171`), entered with `transaction === null`: each candidate
is skipped when it equals the current RPC URL, a thrown probe is caught and
treated as a miss, and a hit switches the connection and URL.  The pair is
(current RPC URL, fetched transaction). -/
def fallbackProbe (fetch : String → FetchOutcome) (rpcUrl : String) :
    String × Option FetchedTx :=
  let s1 : String × Option FetchedTx :=
    if rpcUrl ≠ mainnetUrl then
      match fetch mainnetUrl with
      | .found t => (mainnetUrl, some t)
      | _ => (rpcUrl, none)
    else (rpcUrl, none)
  let s2 : String × Option FetchedTx :=
    if s1.2.isNone then
      if s1.1 ≠ devnetUrl then
        match fetch devnetUrl with
        | .found t => (devnetUrl, some t)
        | _ => (s1.1, none)
      else s1
    else s1
  if s2.2.isNone then
    if s2.1 ≠ testnetUrl then
      match fetch testnetUrl with
      | .found t => (testnetUrl, some t)
      | _ => (s2.1, none)
    else s2
  else s2

/-- The locate phase of `debugSignature` (`simulator.ts:97-171`): the first
`getTransaction` call is not inside any inner try, so its thrown error
escapes to the outer catch; a miss without `skipNetworkFallback` runs the
fallback blocks. -/
def locatePhase (fetch : String → FetchOutcome) (rpcUrl0 : String)
    (skipNetworkFallback : Bool) : Except String (String × Option FetchedTx) :=
  match fetch rpcUrl0 with
  | .threw e => .error e
  | .found t => .ok (rpcUrl0, some t)
  | .notFound =>
    if skipNetworkFallback then .ok (rpcUrl0, none)
    else .ok (fallbackProbe fetch rpcUrl0)

/-- Everything `debugSignature` does after a transaction has been located on
`rpcUrl` (`simulator.ts:177-304`): build the pre-state map, run the dry run,
group the logs and assemble the per-instruction records. -/
def assembleFromTx (env : Env) (sig rpcUrl : String) (transaction : FetchedTx) :
    Except String DebugTransaction :=
  let accountKeys :=
    match transaction.message with
    | .legacy ks _ => ks
    | .versioned ks => ks
  let preMap := buildPreMap env accountKeys
  match env.simulate rpcUrl with
  | .error e => .error e
  | .ok simulationResult =>
    let logsByInstruction := parseTransactionLogs (simulationResult.logs.getD [])
    let instructions :=
      match transaction.message with
      | .legacy ks insns => assembleLegacy env preMap ks insns logsByInstruction
      | .versioned _ => .ok [versionedPlaceholder (simulationResult.logs.getD [])]
    match instructions with
    | .error e => .error e
    | .ok instructions =>
      .ok { signature := some sig,
            success := simulationResult.err.isNone,
            error := simulationResult.err,
            instructions := instructions,
            timestamp := transaction.blockTime,
            slot := some transaction.slot,
            network := some (getNetworkName rpcUrl) }

/-- The body of `debugSignature` inside its outer `try`. -/
def debugSignatureBody (env : Env) (rpcUrl0 sig : String) (skipNetworkFallback : Bool) :
    Except String DebugTransaction :=
  match locatePhase env.fetch rpcUrl0 skipNetworkFallback with
  | .error e => .error e
  | .ok (rpcUrl, tx?) =>
    match tx? with
    | none => .error ("Transaction " ++ sig ++ " not found on any network")
    | some transaction => assembleFromTx env sig rpcUrl transaction

/-- The record returned by the outer catch (`simulator.ts:305-313`). -/
def failureRecord (sig msg : String) : DebugTransaction :=
  { signature := some sig, success := false, error := some msg, instructions := [] }

/-- Embedding of `TransactionSimulator.debugSignature` (`simulator.ts:91-314`): the body
with its outer `try/catch` folded in — a thrown error anywhere yields the
single top-level failure record, so the embedding is total. -/
def debugSignature (env : Env) (rpcUrl0 sig : String) (skipNetworkFallback : Bool) :
    DebugTransaction :=
  match debugSignatureBody env rpcUrl0 sig skipNetworkFallback with
  | .ok dt => dt
  | .error e => failureRecord sig e

/-- The result of `debugSignature` once a transaction has been located on
`rpcUrl`: the assembly with the outer catch folded in. -/
def debugLocated (env : Env) (sig rpcUrl : String) (transaction : FetchedTx) :
    DebugTransaction :=
  match assembleFromTx env sig rpcUrl transaction with
  | .ok dt => dt
  | .error e => failureRecord sig e

/-- The fixed probe order of the spec's transition policy. -/
def fallbackNetworks : List String := [mainnetUrl, devnetUrl, testnetUrl]

/-- Modelled from the spec (transition policy of §4.5), as the comparand of
a refinement claim: scan a candidate list in order and stop at the first
network whose fetch yields a hit; report that network and its transaction,
or the original network and no transaction when the list is exhausted. -/
def firstHit (fetch : String → FetchOutcome) (rpcUrl0 : String) :
    List String → String × Option FetchedTx
  | [] => (rpcUrl0, none)
  | u :: us =>
    match fetch u with
    | .found t => (u, some t)
    | _ => firstHit fetch rpcUrl0 us

/-- Modelled from the spec (transition policy of §4.5): probe the fixed
ordered fallback list, skipping the network already tried, stopping at the
first hit. -/
def specFallbackSearch (fetch : String → FetchOutcome) (rpcUrl0 : String) :
    String × Option FetchedTx :=
  firstHit fetch rpcUrl0 (fallbackNetworks.filter (fun u => u ≠ rpcUrl0))

/-! ## Claims about `anchor-utils.ts` (C3, C5, C6) -/

/-- C3: the transfer-shaped schema used by the spec's scenario: one `u64`
field named `amount`. -/
def transferIx : IdlInstruction :=
  { name := "transfer", args := [{ name := "amount", ty := "u64" }] }

/-- C3 — the claim says the discriminator of an instruction declared only by
name is a truncated one-way hash of `"instruction:" ++ name`, and in
particular is not a copy of the name's bytes.  The code does the opposite:
`deriveInstructionDiscriminator "transfer"` is byte-for-byte the UTF-8
encoding of `"transfer"` (zero-padded to 8 bytes), i.e. the name's bytes are
copied into the discriminator slot.  The source's own comments document the
sha256 derivation as the real one and call this a placeholder, so the claim
is right and the code wrong. -/
theorem C3_discriminator_is_name_byte_copy :
    deriveInstructionDiscriminator "transfer" = [116, 114, 97, 110, 115, 102, 101, 114] ∧
    utf8Bytes "transfer" = [116, 114, 97, 110, 115, 102, 101, 114] := by
  constructor <;> rfl

/-- C5: a payload whose discriminator matches `transferIx` but whose
argument bytes (4 bytes) are shorter than the 8 bytes a `u64` field needs. -/
def truncatedPayload : List Nat :=
  deriveInstructionDiscriminator "transfer" ++ [232, 3, 0, 0]

/-- C5 — the claim says an under-length (or over-length) argument buffer
fails with a `MalformedArguments` error.  The code has no such check:
`decodeAnchorArgs` ignores the schema's field layout and echoes whatever
bytes remain as a hex string, so decoding the truncated `u64` payload
silently succeeds with `rawData = "e8030000"` instead of failing.  The
source comment calls the body a simplified placeholder for the real Borsh
deserialization, so the claim is right and the code wrong. -/
theorem C5_truncated_args_decode_silently :
    decodeAnchorInstruction
        { programIdIndex := 0, accounts := [], data := truncatedPayload }
        { instructions := [transferIx] } ["Prog1"] =
      some { name := "transfer", ix := transferIx, args := .rawData "e8030000" } ∧
    decodeAnchorArgs [232, 3, 0, 0] transferIx = .rawData "e8030000" := by
  constructor <;> rfl

/-- C6 — decoding a payload whose 8-byte discriminator prefix matches no
instruction of the program's IDL returns `none` (not-decodable); the source
returns `null` from `findInstructionByDiscriminator`'s miss and its whole
body is wrapped in `try/catch { return null }`, so no exception escapes
(the embedding is a total function). -/
theorem C6_unregistered_discriminator_not_decodable
    (instruction : CompiledIx) (idl : Idl) (accountKeys : List String)
    (h : ∀ ix ∈ idl.instructions,
      deriveInstructionDiscriminator ix.name ≠ instruction.data.take 8) :
    decodeAnchorInstruction instruction idl accountKeys = none := by
  have hfind : findInstructionByDiscriminator idl (instruction.data.take 8) = none := by
    unfold findInstructionByDiscriminator
    rw [List.find?_eq_none]
    intro ix hix
    simpa using h ix hix
  unfold decodeAnchorInstruction
  simp [hfind]

/-- C6 witness: a concrete payload whose prefix `[9, 9, 9, 9, 9, 9, 9, 9]`
matches no instruction of the one-entry IDL. -/
theorem C6_witness :
    decodeAnchorInstruction
        { programIdIndex := 0, accounts := [0], data := [9, 9, 9, 9, 9, 9, 9, 9, 1] }
        { instructions := [transferIx] } ["Prog1"] = none :=
  C6_unregistered_discriminator_not_decodable _ _ _ (by decide)

/-! ## Claims about the account-diff assembly (C4, C7) -/

/-- C4 — the claim says the `after` snapshot of an assembled diff is a
genuinely distinct post-simulation capture, so some simulation reports a
nonzero change.  The code sets `postState = preState` (`simulator.ts:267`),
so every diff the loop can ever emit has `after` identical to `before`, a
`balance` change of `undefined` and `data: false` — zero changes, always.
The source comments mark the post-state reuse as a placeholder, so the claim
is right and the code wrong. -/
theorem C4_after_snapshot_reuses_before (preMap : String → Option AccountState)
    (accountKeys : List String) (ixAccounts : List Nat) (l : List AccountDiff)
    (h : buildAccountDiffs preMap accountKeys ixAccounts = .ok l) :
    l.all (fun d =>
      decide (d.after = d.before) && d.balanceChange.isNone && !d.dataChanged) = true := by
  induction ixAccounts generalizing l with
  | nil =>
    simp only [buildAccountDiffs] at h
    cases h
    rfl
  | cons i rest ih =>
    simp only [buildAccountDiffs] at h
    cases hk : accountKeys[i]? with
    | none => simp [hk] at h
    | some account =>
      simp only [hk] at h
      cases hr : buildAccountDiffs preMap accountKeys rest with
      | error e => simp [hr] at h
      | ok rest' =>
        simp only [hr] at h
        cases hp : preMap account with
        | none =>
          simp only [hp, Except.ok.injEq] at h
          exact h ▸ ih rest' hr
        | some pre =>
          simp only [hp, Except.ok.injEq] at h
          subst h
          simp [List.all_cons, ih rest' hr]

/-- C7 — the claim says an account present before and absent after yields a
diff with `before` present, `after` absent and `changes.balance =
(balance, absent)`.  The code can never emit such a diff: an account with no
pre-state is skipped entirely (`if (preState && postState)`), and when a
diff is emitted its `after` is the reused pre-state, so both sides are
present.  Hence every emitted diff has `before` and `after` present and a
present pre-snapshot for its key, and the number of diffs equals the number
of resolved accounts whose pre-state exists.  The post-state reuse is the
documented placeholder, so the claim is right and the code wrong. -/
theorem C7_absence_transition_never_emitted (preMap : String → Option AccountState)
    (accountKeys : List String) (ixAccounts : List Nat) (l : List AccountDiff)
    (h : buildAccountDiffs preMap accountKeys ixAccounts = .ok l) :
    l.all (fun d =>
      d.before.isSome && d.after.isSome && (preMap d.pubkey).isSome) = true ∧
    l.length = ((ixAccounts.filterMap (fun i => accountKeys[i]?)).filter
      (fun a => (preMap a).isSome)).length := by
  induction ixAccounts generalizing l with
  | nil =>
    simp only [buildAccountDiffs] at h
    cases h
    exact ⟨rfl, rfl⟩
  | cons i rest ih =>
    simp only [buildAccountDiffs] at h
    cases hk : accountKeys[i]? with
    | none => simp [hk] at h
    | some account =>
      simp only [hk] at h
      cases hr : buildAccountDiffs preMap accountKeys rest with
      | error e => simp [hr] at h
      | ok rest' =>
        simp only [hr] at h
        cases hp : preMap account with
        | none =>
          simp only [hp, Except.ok.injEq] at h
          subst h
          refine ⟨(ih rest' hr).1, ?_⟩
          simp [List.filterMap_cons, hk, hp, (ih rest' hr).2]
        | some pre =>
          simp only [hp, Except.ok.injEq] at h
          subst h
          refine ⟨?_, ?_⟩
          · simp [List.all_cons, hp, (ih rest' hr).1]
          · simp [List.filterMap_cons, hk, hp, (ih rest' hr).2]

/-- Shared fixture: a concrete pre-state snapshot for account `"X"`. -/
def sampleInfo : AccountInfoM :=
  { lamports := 500, dataBytes := [1, 2], owner := "Prog1", executable := false,
    rentEpoch := 3 }

/-- Shared fixture: the snapshot of `"X"` as captured by the pre-state loop. -/
def sampleState : AccountState :=
  { pubkey := "X", account := sampleInfo, programOwner := "Prog1", label := none }

/-- Shared fixture: a pre-state map holding only `"X"`. -/
def samplePre : String → Option AccountState :=
  fun a => if a = "X" then some sampleState else none

/-- Shared fixture: the diff the placeholder loop emits for `"X"`. -/
def sampleDiff : AccountDiff :=
  { pubkey := "X", before := some sampleState, after := some sampleState,
    dataChanged := false, balanceChange := none }

/-- C4 witness: the loop on the one-account instruction emits exactly the
zero-change, `after = before` diff. -/
theorem C4_witness :
    ([sampleDiff].all (fun d =>
      decide (d.after = d.before) && d.balanceChange.isNone && !d.dataChanged)) = true :=
  C4_after_snapshot_reuses_before samplePre ["X"] [0] [sampleDiff] (by rfl)

/-- C7 witness: for the same one-account instruction, the emitted diff has
both sides present and the count matches the pre-state-present accounts. -/
theorem C7_witness :
    ([sampleDiff].all (fun d =>
      d.before.isSome && d.after.isSome && (samplePre d.pubkey).isSome)) = true ∧
    ([sampleDiff] : List AccountDiff).length =
      ((([0] : List Nat).filterMap (fun i => (["X"] : List String)[i]?)).filter
        (fun a => (samplePre a).isSome)).length :=
  C7_absence_transition_never_emitted samplePre ["X"] [0] [sampleDiff] (by rfl)

/-! ## Log-grouper lemmas (towards C2) -/

/-- A well-formed bucket: nonempty, opened by a depth-1 invoke line, with no
further depth-1 line inside. -/
def bucketWF (b : List String) : Bool :=
  match b with
  | [] => false
  | hd :: tl => isDepth1Line hd && tl.all (fun l => !isDepth1Line l)

theorem keepLine_of_depth1 (l : String) (h : isDepth1Line l = true) :
    keepLine l = true := by
  simp only [isDepth1Line, Bool.and_eq_true, decide_eq_true_eq] at h
  simp [keepLine, h.1, h.2]

theorem parseStep_depth1 (st : ParseState) (l : String) (h : isDepth1Line l = true) :
    parseStep st l = ⟨st.buckets ++ [[l]], true⟩ := by
  simp only [isDepth1Line, Bool.and_eq_true, decide_eq_true_eq] at h
  simp [parseStep, h.1, h.2]

theorem parseStep_closed (bs : List (List String)) (l : String)
    (h : isDepth1Line l = false) : parseStep ⟨bs, false⟩ l = ⟨bs, false⟩ := by
  unfold parseStep
  by_cases h1 : isInvokeLine l
  · cases h2 : firstInvokeDepth l.data with
    | none => simp [h1, h2]
    | some ds =>
      have hds : ¬(ds = ['1']) := by
        intro e; subst e
        simp [isDepth1Line, h1, h2] at h
      simp [h1, h2, hds]
  · simp [h1]

theorem parseStep_open (bs : List (List String)) (l : String)
    (h : isDepth1Line l = false) :
    parseStep ⟨bs, true⟩ l =
      if keepLine l = true then ⟨appendLast bs l, true⟩ else ⟨bs, true⟩ := by
  unfold parseStep
  by_cases h1 : isInvokeLine l
  · cases h2 : firstInvokeDepth l.data with
    | none => simp [h1, h2, keepLine]
    | some ds =>
      have hds : ¬(ds = ['1']) := by
        intro e; subst e
        simp [isDepth1Line, h1, h2] at h
      simp [h1, h2, hds, keepLine]
  · simp [h1, keepLine]

theorem appendLast_length (bs : List (List String)) (l : String) :
    (appendLast bs l).length = bs.length := by
  induction bs with
  | nil => rfl
  | cons b bs ih =>
    cases bs with
    | nil => rfl
    | cons b' bs' => simpa [appendLast] using ih

theorem appendLast_ne_nil (bs : List (List String)) (l : String) (h : bs ≠ []) :
    appendLast bs l ≠ [] := by
  cases bs with
  | nil => exact absurd rfl h
  | cons b bs => cases bs <;> simp [appendLast]

theorem appendLast_flatten (bs : List (List String)) (l : String) (h : bs ≠ []) :
    (appendLast bs l).flatten = bs.flatten ++ [l] := by
  induction bs with
  | nil => exact absurd rfl h
  | cons b bs ih =>
    cases bs with
    | nil => simp [appendLast]
    | cons b' bs' => simp [appendLast, ih (by simp), List.append_assoc]

theorem appendLast_WF (bs : List (List String)) (l : String)
    (hwf : bs.all bucketWF = true) (hl : isDepth1Line l = false) :
    (appendLast bs l).all bucketWF = true := by
  induction bs with
  | nil => rfl
  | cons b bs ih =>
    cases bs with
    | nil =>
      cases b with
      | nil => simp [bucketWF] at hwf
      | cons hd tl =>
        simp only [List.all_cons, Bool.and_eq_true, bucketWF] at hwf
        simp [appendLast, bucketWF, List.all_append, hwf.1.1, hwf.1.2, hl]
    | cons b' bs' =>
      simp only [List.all_cons, Bool.and_eq_true] at hwf
      have := ih (by simp [List.all_cons, hwf.2.1, hwf.2.2])
      simp only [appendLast, List.all_cons, Bool.and_eq_true]
      exact ⟨hwf.1, by simpa [List.all_cons] using this⟩

theorem parseFold_length (ls : List String) :
    ∀ st : ParseState, ((ls.foldl parseStep st).buckets).length =
      st.buckets.length + ls.countP isDepth1Line := by
  induction ls with
  | nil => intro st; simp
  | cons l ls ih =>
    intro st
    rw [List.foldl_cons, ih (parseStep st l), List.countP_cons]
    have hlen : (parseStep st l).buckets.length =
        st.buckets.length + (if isDepth1Line l = true then 1 else 0) := by
      by_cases hd : isDepth1Line l
      · rw [parseStep_depth1 st l hd]; simp [hd]
      · obtain ⟨bs, flag⟩ := st
        cases flag with
        | false => rw [parseStep_closed bs l (by simpa using hd)]; simp [hd]
        | true =>
          rw [parseStep_open bs l (by simpa using hd)]
          by_cases hk : keepLine l = true <;> simp [hk, hd, appendLast_length]
    rw [hlen]
    omega

theorem parseFold_flatten_open (ls : List String) :
    ∀ bs : List (List String), bs ≠ [] →
      ((ls.foldl parseStep ⟨bs, true⟩).buckets).flatten =
        bs.flatten ++ ls.filter keepLine := by
  induction ls with
  | nil => intro bs _; simp
  | cons l ls ih =>
    intro bs hbs
    rw [List.foldl_cons]
    by_cases hd : isDepth1Line l
    · rw [parseStep_depth1 ⟨bs, true⟩ l hd]
      rw [ih (bs ++ [[l]]) (by simp)]
      simp [List.filter_cons, keepLine_of_depth1 l hd, List.append_assoc]
    · rw [parseStep_open bs l (by simpa using hd)]
      by_cases hk : keepLine l = true
      · rw [if_pos hk]
        rw [ih (appendLast bs l) (appendLast_ne_nil bs l hbs)]
        rw [appendLast_flatten bs l hbs]
        simp [List.filter_cons, hk, List.append_assoc]
      · rw [if_neg hk]
        rw [ih bs hbs]
        simp only [List.filter_cons]
        simp [show keepLine l = false by simpa using hk]

theorem parseFold_flatten_closed (ls : List String) :
    ((ls.foldl parseStep ⟨[], false⟩).buckets).flatten =
      (ls.dropWhile (fun l => !isDepth1Line l)).filter keepLine := by
  induction ls with
  | nil => simp
  | cons l ls ih =>
    rw [List.foldl_cons]
    by_cases hd : isDepth1Line l
    · have hstep : parseStep ⟨[], false⟩ l = ⟨[[l]], true⟩ := by
        rw [parseStep_depth1 ⟨[], false⟩ l hd]
        rfl
      rw [hstep, List.dropWhile_cons_of_neg (by simp [hd])]
      rw [parseFold_flatten_open ls [[l]] (by simp)]
      simp [List.filter_cons, keepLine_of_depth1 l hd]
    · rw [parseStep_closed [] l (by simpa using hd)]
      rw [List.dropWhile_cons_of_pos (by simp [hd])]
      exact ih

theorem parseFold_WF_open (ls : List String) :
    ∀ bs : List (List String), bs.all bucketWF = true →
      ((ls.foldl parseStep ⟨bs, true⟩).buckets).all bucketWF = true := by
  induction ls with
  | nil => intro bs h; simpa using h
  | cons l ls ih =>
    intro bs hbs
    rw [List.foldl_cons]
    by_cases hd : isDepth1Line l
    · rw [parseStep_depth1 ⟨bs, true⟩ l hd]
      exact ih (bs ++ [[l]]) (by simp [List.all_append, hbs, bucketWF, hd])
    · rw [parseStep_open bs l (by simpa using hd)]
      by_cases hk : keepLine l = true
      · rw [if_pos hk]
        exact ih _ (appendLast_WF bs l hbs (by simpa using hd))
      · rw [if_neg hk]
        exact ih bs hbs

theorem parseFold_WF_closed (ls : List String) :
    ((ls.foldl parseStep ⟨[], false⟩).buckets).all bucketWF = true := by
  induction ls with
  | nil => rfl
  | cons l ls ih =>
    rw [List.foldl_cons]
    by_cases hd : isDepth1Line l
    · rw [parseStep_depth1 ⟨[], false⟩ l hd]
      exact parseFold_WF_open ls [[l]] (by simp [bucketWF, hd])
    · rw [parseStep_closed [] l (by simpa using hd)]
      exact ih

/-! ## Claims about the log grouper (C2, C9) -/

/-- Keys of the grouped-log object are exactly `1..K`. -/
theorem bucketLookup_isSome (m : List (List String)) (k : Nat) :
    (bucketLookup m k).isSome = true ↔ 1 ≤ k ∧ k ≤ m.length := by
  cases k with
  | zero => simp [bucketLookup]
  | succ k =>
    simp only [bucketLookup, Option.isSome_iff_ne_none, ne_eq,
      List.getElem?_eq_none_iff]
    omega

/-- C2 — counterexample to the claim as stated.  The stream
`["Program A invoke [1]", "Program B invoke [x]"]` has one depth-1 invoke
line; its second line comes after that first depth-1 line, yet it lands in
no bucket: it passes the `startsWith`/`includes` guard but the
`invoke [(\d+)]` capture fails, so `log-parser.ts:19` silently drops it
instead of appending it to the open bucket.  Hence "every line at or after
the first depth-1 invoke line belongs to exactly one bucket" is false. -/
theorem C2_counterexample :
    isDepth1Line "Program A invoke [1]" = true ∧
    parseTransactionLogs ["Program A invoke [1]", "Program B invoke [x]"] =
      [["Program A invoke [1]"]] ∧
    ∀ b ∈ parseTransactionLogs ["Program A invoke [1]", "Program B invoke [x]"],
      ¬ "Program B invoke [x]" ∈ b := by decide

/-- C2 (amended) — for every log stream with `K` depth-1 invoke lines the
grouper yields exactly `K` buckets, keyed `1..K`; every line at or after the
first depth-1 invoke line, **except** malformed invoke lines (lines passing
the `startsWith 'Program '` / `includes ' invoke ['` guard whose numeric
depth capture fails, which are silently dropped), belongs to exactly one
bucket, in order and without duplication (the flattened buckets are exactly
the kept suffix); each bucket is opened by its depth-1 line and contains no
second depth-1 line; and a stream with no depth-1 opener (in particular the
empty stream or an all-nested stream) yields the empty mapping (`K = 0`). -/
theorem C2_grouping_amended (logs : List String) (k : Nat) :
    (parseTransactionLogs logs).length = logs.countP isDepth1Line ∧
    ((bucketLookup (parseTransactionLogs logs) k).isSome = true ↔
      1 ≤ k ∧ k ≤ logs.countP isDepth1Line) ∧
    (parseTransactionLogs logs).flatten =
      (logs.dropWhile (fun l => !isDepth1Line l)).filter keepLine ∧
    (parseTransactionLogs logs).all bucketWF = true := by
  have hlen : (parseTransactionLogs logs).length = logs.countP isDepth1Line := by
    simpa [parseTransactionLogs] using parseFold_length logs ⟨[], false⟩
  refine ⟨hlen, ?_, ?_, ?_⟩
  · rw [bucketLookup_isSome, hlen]
  · simpa [parseTransactionLogs] using parseFold_flatten_closed logs
  · simpa [parseTransactionLogs] using parseFold_WF_closed logs

/-- The four-line scenario stream of the spec. -/
def scenarioLogs : List String :=
  ["Program P invoke [1]", "Program log: Success",
   "Program P consumed 200 of 1000 compute units", "Program P success"]

/-- C9 — counterexample to the claim as stated.  In the stream
`["Program P invoke [1]", "Program P success"]` no line (in particular none
of the last five) contains `'failed'` or `'Error:'` — no failure marker at
all — yet `isTransactionSuccessful` returns `false`, because the code
additionally requires some line containing `'Program log: Success'`
(`log-parser.ts:81`). -/
theorem C9_counterexample :
    (["Program P invoke [1]", "Program P success"].all
      (fun l => !(containsSub l "failed" || containsSub l "Error:"))) = true ∧
    isTransactionSuccessful ["Program P invoke [1]", "Program P success"] = false := by
  decide

/-- C9 (amended) — `isTransactionSuccessful` returns `true` iff none of the
last five lines contains `'failed'` or `'Error:'` **and** some line contains
`'Program log: Success'`; on the spec's four-line scenario it returns `true`
and `extractComputeUnits` parses `200` from the consumed-units line. -/
theorem C9_success_detection_amended :
    (∀ logs : List String,
      isTransactionSuccessful logs = true ↔
        ((∀ l ∈ logs.drop (logs.length - 5),
            containsSub l "failed" = false ∧ containsSub l "Error:" = false) ∧
          ∃ l ∈ logs, containsSub l "Program log: Success" = true)) ∧
    isTransactionSuccessful scenarioLogs = true ∧
    extractComputeUnits scenarioLogs = some 200 := by
  refine ⟨?_, by decide, by decide⟩
  intro logs
  simp only [isTransactionSuccessful]
  by_cases h : (logs.drop (logs.length - 5)).any
      (fun log => containsSub log "failed" || containsSub log "Error:") = true
  · rw [if_pos h]
    constructor
    · intro hf; exact absurd hf (by simp)
    · rintro ⟨hall, -⟩
      obtain ⟨x, hx, hpx⟩ := List.any_eq_true.mp h
      have hx2 := hall x hx
      rcases (by simpa using hpx :
          containsSub x "failed" = true ∨ containsSub x "Error:" = true) with h1 | h1
      · rw [hx2.1] at h1; exact absurd h1 (by simp)
      · rw [hx2.2] at h1; exact absurd h1 (by simp)
  · rw [if_neg h]
    simp only [List.any_eq_true]
    constructor
    · rintro ⟨l, hl, hp⟩
      refine ⟨?_, l, hl, hp⟩
      intro x hx
      by_contra hcon
      apply h
      refine List.any_eq_true.mpr ⟨x, hx, ?_⟩
      cases hf : containsSub x "failed" with
      | true => simp [hf]
      | false =>
        cases he : containsSub x "Error:" with
        | true => simp [hf, he]
        | false => exact absurd ⟨hf, he⟩ hcon
    · rintro ⟨-, l, hl, hp⟩
      exact ⟨l, hl, hp⟩

/-! ## Claim about log attachment in the assembly loop (C10) -/

/-- The `logs` field of every assembled instruction: position `j` of the
result of the loop started at `index = i0` reads the grouped-log object at
key `i0 + j`. -/
theorem assembleLegacyAux_logs (env : Env) (preMap : String → Option AccountState)
    (accountKeys : List String) (m : List (List String)) :
    ∀ (insns : List CompiledIx) (i0 : Nat) (dl : List DebugInstruction),
      assembleLegacyAux env preMap accountKeys m i0 insns = .ok dl →
      dl.length = insns.length ∧
      ∀ j d, dl[j]? = some d → d.logs = (bucketLookup m (i0 + j)).getD [] := by
  intro insns
  induction insns with
  | nil =>
    intro i0 dl h
    simp only [assembleLegacyAux] at h
    cases h
    refine ⟨rfl, ?_⟩
    intro j d hj
    simp only [List.getElem?_nil] at hj
    cases hj
  | cons ins rest ih =>
    intro i0 dl h
    simp only [assembleLegacyAux] at h
    cases hk : accountKeys[ins.programIdIndex]? with
    | none => simp [hk] at h
    | some programId =>
      simp only [hk] at h
      cases hdf : buildAccountDiffs preMap accountKeys ins.accounts with
      | error e => simp [hdf] at h
      | ok diffs =>
        simp only [hdf] at h
        cases hr : assembleLegacyAux env preMap accountKeys m (i0 + 1) rest with
        | error e => simp [hr] at h
        | ok rest' =>
          simp only [hr, Except.ok.injEq] at h
          subst h
          obtain ⟨hlen, hlogs⟩ := ih (i0 + 1) rest' hr
          refine ⟨by simp [hlen], ?_⟩
          intro j d hj
          cases j with
          | zero =>
            simp only [List.getElem?_cons_zero, Option.some.injEq] at hj
            subst hj
            rfl
          | succ j =>
            simp only [List.getElem?_cons_succ] at hj
            have hgl := hlogs j d hj
            have harith : i0 + (j + 1) = i0 + 1 + j := by omega
            rw [harith]
            exact hgl

/-- C10 — in the legacy assembly loop the bucket attached to the
instruction at position `index` is `logsByInstruction[index] || []`, read
with the 0-based `forEach` index from the 1-based grouped-log object.
Consequently instruction 0 always gets the empty log list (key 0 is absent),
and with `K` instructions only keys `0..K-1` are read, so when the grouping
has exactly `K` buckets the bucket keyed `K` (the last instruction's logs)
is attached to nothing: the attached lists are the empty list followed by
buckets `1..K-1`. -/
theorem C10_log_attachment_off_by_one (env : Env) (preMap : String → Option AccountState)
    (accountKeys : List String) (insns : List CompiledIx) (lgs : List String)
    (dl : List DebugInstruction)
    (h : assembleLegacy env preMap accountKeys insns (parseTransactionLogs lgs) = .ok dl) :
    (∀ j d, dl[j]? = some d →
      d.logs = (bucketLookup (parseTransactionLogs lgs) j).getD []) ∧
    (∀ d, dl[0]? = some d → d.logs = []) ∧
    (1 ≤ insns.length → insns.length = (parseTransactionLogs lgs).length →
      dl.map (fun d => d.logs) =
        [] :: (parseTransactionLogs lgs).take (insns.length - 1)) := by
  obtain ⟨hlen, hlogs0⟩ :=
    assembleLegacyAux_logs env preMap accountKeys (parseTransactionLogs lgs) insns 0 dl h
  have hlogs : ∀ j d, dl[j]? = some d →
      d.logs = (bucketLookup (parseTransactionLogs lgs) j).getD [] := by
    intro j d hj
    simpa using hlogs0 j d hj
  refine ⟨hlogs, ?_, ?_⟩
  · intro d hd
    simpa [bucketLookup] using hlogs 0 d hd
  · intro hn1 hnm
    apply List.ext_getElem?
    intro j
    rw [List.getElem?_map]
    rcases Nat.lt_or_ge j dl.length with hj | hj
    · rw [List.getElem?_eq_getElem hj]
      have hval := hlogs j _ (List.getElem?_eq_getElem hj)
      cases j with
      | zero =>
        simp [hval, bucketLookup]
      | succ j =>
        have hj2 : j + 1 < insns.length := by rw [hlen] at hj; exact hj
        have hjlt : j < insns.length - 1 := by omega
        have hjm : j < (parseTransactionLogs lgs).length := by
          rw [hnm] at hj2; omega
        rw [List.getElem?_cons_succ, List.getElem?_take_of_lt hjlt]
        simp [hval, bucketLookup, List.getElem?_eq_getElem hjm]
    · rw [List.getElem?_eq_none (by simpa using hj)]
      have hlenr : ([] :: (parseTransactionLogs lgs).take (insns.length - 1)).length
          = insns.length := by
        simp [List.length_take]
        omega
      rw [List.getElem?_eq_none (by rw [hlenr]; omega)]
      simp

/-- Fixture for the C10 witness: an environment whose collaborators are all
inert. -/
def trivialEnv : Env :=
  { fetch := fun _ => .notFound,
    getAccountInfo := fun _ => none,
    getLabel := fun _ _ => none,
    simulate := fun _ => .ok { err := none, logs := some [] },
    idlMap := fun _ => none,
    userPrograms := fun _ => none }

/-- Fixture: a two-instruction transaction whose simulation produced two
depth-1 buckets. -/
def c10Logs : List String :=
  ["Program P1 invoke [1]", "a", "Program P2 invoke [1]", "b"]

/-- Fixture: the two compiled instructions (programs at key 0 and 1). -/
def c10Insns : List CompiledIx :=
  [{ programIdIndex := 0, accounts := [], data := [] },
   { programIdIndex := 1, accounts := [], data := [] }]

/-- Fixture: what the assembly loop produces for `c10Insns`/`c10Logs`:
instruction 0 carries no logs, instruction 1 carries bucket 1 — the logs of
instruction 0 — and bucket 2 is attached to nothing. -/
def c10Result : List DebugInstruction :=
  [{ programId := "P1", programName := "P1...P1", instructionIndex := 0,
     instructionName := none, anchorArgs := none, logs := [],
     accountDiffs := [] },
   { programId := "P2", programName := "P2...P2", instructionIndex := 1,
     instructionName := none, anchorArgs := none,
     logs := ["Program P1 invoke [1]", "a"], accountDiffs := [] }]

/-- C10 witness: on the concrete two-instruction, two-bucket example the
attached log lists are `[]` and bucket 1; bucket 2 is dropped. -/
theorem C10_witness :
    c10Result.map (fun d => d.logs) =
      [] :: (parseTransactionLogs c10Logs).take (c10Insns.length - 1) :=
  (C10_log_attachment_off_by_one trivialEnv (fun _ => none) ["P1", "P2"]
    c10Insns c10Logs c10Result (by rfl)).2.2 (by decide) (by rfl)

/-! ## Claims about the fallback search and top-level error handling (C1, C8) -/

/-- The nested fallback blocks coincide with the spec's first-hit scan over
the fixed probe order with the already-tried network removed. -/
theorem fallbackProbe_eq_spec (fetch : String → FetchOutcome) (url0 : String) :
    fallbackProbe fetch url0 = specFallbackSearch fetch url0 := by
  by_cases hm : url0 = mainnetUrl
  · subst hm
    unfold specFallbackSearch
    rw [show fallbackNetworks.filter (fun u => u ≠ mainnetUrl) =
      [devnetUrl, testnetUrl] by decide]
    cases hfd : fetch devnetUrl <;> cases hft : fetch testnetUrl <;>
      simp +decide [fallbackProbe, firstHit, hfd, hft]
  · by_cases hd : url0 = devnetUrl
    · subst hd
      unfold specFallbackSearch
      rw [show fallbackNetworks.filter (fun u => u ≠ devnetUrl) =
        [mainnetUrl, testnetUrl] by decide]
      cases hfm : fetch mainnetUrl <;> cases hft : fetch testnetUrl <;>
        simp +decide [fallbackProbe, firstHit, hfm, hft]
    · by_cases ht : url0 = testnetUrl
      · subst ht
        unfold specFallbackSearch
        rw [show fallbackNetworks.filter (fun u => u ≠ testnetUrl) =
          [mainnetUrl, devnetUrl] by decide]
        cases hfm : fetch mainnetUrl <;> cases hfd : fetch devnetUrl <;>
          simp +decide [fallbackProbe, firstHit, hfm, hfd]
      · unfold specFallbackSearch
        have h1 : ¬(mainnetUrl = url0) := fun e => hm e.symm
        have h2 : ¬(devnetUrl = url0) := fun e => hd e.symm
        have h3 : ¬(testnetUrl = url0) := fun e => ht e.symm
        rw [show fallbackNetworks.filter (fun u => u ≠ url0) =
          [mainnetUrl, devnetUrl, testnetUrl] by
            simp [fallbackNetworks, List.filter_cons, h1, h2, h3]]
        cases hfm : fetch mainnetUrl <;> cases hfd : fetch devnetUrl <;>
          cases hft : fetch testnetUrl <;>
          simp [fallbackProbe, firstHit, hfm, hfd, hft, hm, hd, ht]

/-- On a miss on the selected network with fallback enabled, the locate
phase returns the spec's fallback-search result. -/
theorem locatePhase_notFound (fetch : String → FetchOutcome) (url0 : String)
    (h : fetch url0 = .notFound) :
    locatePhase fetch url0 false = .ok (specFallbackSearch fetch url0) := by
  simp [locatePhase, h, fallbackProbe_eq_spec]

/-- A scan over networks none of which yields a hit ends with the original
network and no transaction. -/
theorem firstHit_none (fetch : String → FetchOutcome) (url0 : String) :
    ∀ us : List String, (∀ u ∈ us, (fetch u).isFound = false) →
      firstHit fetch url0 us = (url0, none) := by
  intro us
  induction us with
  | nil => intro _; rfl
  | cons u us ih =>
    intro h
    have hu := h u (by simp)
    cases hfu : fetch u with
    | found t => rw [hfu] at hu; simp [FetchOutcome.isFound] at hu
    | notFound =>
      simp only [firstHit, hfu]
      exact ih (fun v hv => h v (by simp [hv]))
    | threw e =>
      simp only [firstHit, hfu]
      exact ih (fun v hv => h v (by simp [hv]))

/-- C1 — when the transaction is missing on the caller-selected network and
fallback is enabled, `debugSignature` probes exactly the fixed ordered list
mainnet, devnet, testnet with the already-tried network skipped, stops at
the first hit, switches the active RPC context to the hit network, and the
final trace is exactly the one assembled from that network's transaction
and simulation (`debugLocated` on the hit network). -/
theorem C1_network_fallback_search (env : Env) (url0 sig : String)
    (h : env.fetch url0 = .notFound) :
    locatePhase env.fetch url0 false = .ok (specFallbackSearch env.fetch url0) ∧
    (∀ url t, specFallbackSearch env.fetch url0 = (url, some t) →
      debugSignature env url0 sig false = debugLocated env sig url t) := by
  have hl := locatePhase_notFound env.fetch url0 h
  refine ⟨hl, ?_⟩
  intro url t hspec
  rw [hspec] at hl
  cases hA : assembleFromTx env sig url t <;>
    simp [debugSignature, debugSignatureBody, hl, debugLocated, hA]

/-- Fixture: the transaction found on devnet in the C1 witness scenario. -/
def c1Tx : FetchedTx :=
  { message := .versioned ["F"], slot := 7, blockTime := none }

/-- Fixture: an environment where the signature resolves only on devnet. -/
def c1Env : Env :=
  { fetch := fun u => if u = devnetUrl then .found c1Tx else .notFound,
    getAccountInfo := fun _ => none,
    getLabel := fun _ _ => none,
    simulate := fun _ => .ok { err := none, logs := some [] },
    idlMap := fun _ => none,
    userPrograms := fun _ => none }

/-- C1 witness: starting from a local RPC URL, the search misses mainnet,
hits devnet (second in the fallback order), and the debug result is the one
assembled on devnet. -/
theorem C1_witness :
    locatePhase c1Env.fetch "http://localhost:8899" false =
      .ok (specFallbackSearch c1Env.fetch "http://localhost:8899") ∧
    debugSignature c1Env "http://localhost:8899" "sig" false =
      debugLocated c1Env "sig" devnetUrl c1Tx := by
  have h := C1_network_fallback_search c1Env "http://localhost:8899" "sig" (by rfl)
  exact ⟨h.1, h.2 devnetUrl c1Tx (by rfl)⟩

/-- C8 — any error that prevents locating or simulating the transaction is
caught by the outer catch and surfaced as the single top-level failure
record with `success = false`, a human-readable message and no
instructions; in particular exhausting the fallback list yields the
"not found on any network" failure, and a throwing dry run yields a failure
carrying its message.  The embedding of `debugSignature` is a total
function, so no exception escapes to the caller. -/
theorem C8_top_level_failure (env : Env) (url0 sig : String) (skip : Bool) :
    (∀ e, debugSignatureBody env url0 sig skip = .error e →
      debugSignature env url0 sig skip = failureRecord sig e ∧
      (debugSignature env url0 sig skip).success = false ∧
      (debugSignature env url0 sig skip).error = some e ∧
      (debugSignature env url0 sig skip).instructions = []) ∧
    (env.fetch url0 = .notFound →
      (∀ u ∈ fallbackNetworks, (env.fetch u).isFound = false) →
      debugSignature env url0 sig false =
        failureRecord sig ("Transaction " ++ sig ++ " not found on any network")) ∧
    (∀ t e, env.fetch url0 = .found t → env.simulate url0 = .error e →
      debugSignature env url0 sig skip = failureRecord sig e) := by
  refine ⟨?_, ?_, ?_⟩
  · intro e he
    have hds : debugSignature env url0 sig skip = failureRecord sig e := by
      simp [debugSignature, he]
    exact ⟨hds, by rw [hds]; rfl, by rw [hds]; rfl, by rw [hds]; rfl⟩
  · intro hnf hall
    have hprobe : specFallbackSearch env.fetch url0 = (url0, none) := by
      unfold specFallbackSearch
      exact firstHit_none env.fetch url0 _
        (fun u hu => hall u (List.mem_of_mem_filter hu))
    have hl := locatePhase_notFound env.fetch url0 hnf
    rw [hprobe] at hl
    simp [debugSignature, debugSignatureBody, hl, failureRecord]
  · intro t e hf hs
    have hl : locatePhase env.fetch url0 skip = .ok (url0, some t) := by
      simp [locatePhase, hf]
    simp [debugSignature, debugSignatureBody, hl, assembleFromTx, hs]

/-- C8 witness: with the transaction absent everywhere, the result is the
single "not found on any network" failure record. -/
theorem C8_witness :
    debugSignature trivialEnv "http://localhost:8899" "sig8" false =
      failureRecord "sig8" ("Transaction " ++ "sig8" ++ " not found on any network") :=
  (C8_top_level_failure trivialEnv "http://localhost:8899" "sig8" false).2.1
    (by rfl) (by decide)

end SolTracer
